import Mathlib

/-!
Verification development for the flatiron-cleaner oncology ETL library
(`flatiron_cleaner/nsclc.py`, `flatiron_cleaner/headneck.py`).

The per-domain pipelines are shallowly embedded as pure Lean functions:
dates are day numbers (`Int`, days since the Unix epoch, as produced by
pandas datetime arithmetic), tables are lists of rows keyed by PatientID
(`String`), and missing values are `Option`.  Each definition is a direct
translation of the corresponding pandas code; theorems establish the
behavioural properties of those translations.
-/

/-! ## Generic list helpers (pandas groupby / merge / max primitives) -/

/-- Maximum of a list of integers, `none` on the empty list.  Translation of
the pandas `Series.max()` aggregation (NaN when the group is empty). -/
def listMaxInt : List Int → Option Int
  | [] => none
  | x :: t => some (t.foldl max x)

theorem foldl_max_ge (l : List Int) (a : Int) : a ≤ l.foldl max a := by
  induction l generalizing a with
  | nil => simp
  | cons x t ih => exact le_trans (le_max_left a x) (ih (max a x))

theorem foldl_max_mem (l : List Int) (a : Int) :
    l.foldl max a = a ∨ l.foldl max a ∈ l := by
  induction l generalizing a with
  | nil => simp
  | cons x t ih =>
    rcases ih (max a x) with h | h
    · rcases max_choice a x with hm | hm
      · left; rw [List.foldl_cons, h, hm]
      · right; rw [List.foldl_cons, h, hm]; exact List.mem_cons_self x t
    · right; exact List.mem_cons_of_mem x h

theorem foldl_max_le_all (l : List Int) (a : Int) :
    ∀ b ∈ l, b ≤ l.foldl max a := by
  induction l generalizing a with
  | nil => intro b hb; simp at hb
  | cons x t ih =>
    intro b hb
    rcases List.mem_cons.mp hb with rfl | hb
    · exact le_trans (le_trans (le_max_right a b) (foldl_max_ge t (max a b))) (by rw [List.foldl_cons])
    · exact ih (max a x) b hb

theorem listMaxInt_spec {l : List Int} {m : Int} (h : listMaxInt l = some m) :
    m ∈ l ∧ ∀ b ∈ l, b ≤ m := by
  cases l with
  | nil => simp [listMaxInt] at h
  | cons x t =>
    simp only [listMaxInt, Option.some.injEq] at h
    subst h
    constructor
    · rcases foldl_max_mem t x with h | h
      · rw [h]; exact List.mem_cons_self x t
      · exact List.mem_cons_of_mem x h
    · intro b hb
      rcases List.mem_cons.mp hb with rfl | hb
      · exact foldl_max_ge t b
      · exact foldl_max_le_all t x b hb

theorem listMaxInt_ne_nil {l : List Int} (h : l ≠ []) :
    (listMaxInt l).isSome = true := by
  cases l with
  | nil => exact absurd rfl h
  | cons x t => simp [listMaxInt]

/-- Group a keyed list by key, keys in order of first appearance, each key
paired with the list of its values in input order.  Translation of pandas
`groupby` on a PatientID column (group keys are unique). -/
def groupPairs {β : Type} (l : List (String × β)) : List (String × List β) :=
  ((l.map Prod.fst).dedup).map
    (fun k => (k, (l.filter (fun p => p.1 == k)).map Prod.snd))

theorem groupPairs_keys {β : Type} (l : List (String × β)) :
    (groupPairs l).map Prod.fst = (l.map Prod.fst).dedup := by
  unfold groupPairs
  rw [List.map_map]
  rw [show (Prod.fst ∘ fun k => (k, (l.filter (fun p => p.1 == k)).map Prod.snd)) = id from rfl]
  exact List.map_id _

theorem groupPairs_keys_nodup {β : Type} (l : List (String × β)) :
    ((groupPairs l).map Prod.fst).Nodup := by
  rw [groupPairs_keys]
  exact List.nodup_dedup _

/-! ## Calendar dates

Pandas datetimes are modelled as day numbers (days since 1970-01-01).
`dateToDay` is the standard civil-calendar conversion, so differences of
day numbers agree with `(a - b).dt.days`. -/

def dateToDay (y m d : Int) : Int :=
  let y2 := if m ≤ 2 then y - 1 else y
  let era := Int.fdiv y2 400
  let yoe := y2 - era * 400
  let mp := (m + 9) % 12
  let doy := Int.fdiv (153 * mp + 2) 5 + d - 1
  let doe := yoe * 365 + Int.fdiv yoe 4 - Int.fdiv yoe 100 + doy
  era * 146097 + doe - 719468

/-- Parse a full `YYYY-MM-DD` date string into a (year, month, day) triple;
`none` on any other shape.  Models `pd.to_datetime` on the date strings the
pipelines feed it after imputation. -/
def parseYMD (s : String) : Option (Int × Int × Int) :=
  match s.toList with
  | [y1, y2, y3, y4, c1, m1, m2, c2, d1, d2] =>
    if y1.isDigit && y2.isDigit && y3.isDigit && y4.isDigit && (c1 == '-') &&
       m1.isDigit && m2.isDigit && (c2 == '-') && d1.isDigit && d2.isDigit then
      some (((y1.toNat - 48) * 1000 + (y2.toNat - 48) * 100 + (y3.toNat - 48) * 10 + (y4.toNat - 48) : Nat),
            ((m1.toNat - 48) * 10 + (m2.toNat - 48) : Nat),
            ((d1.toNat - 48) * 10 + (d2.toNat - 48) : Nat))
    else none
  | _ => none

/-- Parse a raw death-date string (after imputation) to a day number. -/
def parseDateToDay (s : String) : Option Int :=
  (parseYMD s).map (fun t => dateToDay t.1 t.2.1 t.2.2)

/-! ## SurvivalConstructor: `DataProcessorNSCLC.process_mortality`
(nsclc.py lines 2798-2964; identical logic in headneck.py 571-687). -/

/-- Death-date imputation, nsclc.py lines 2802-2806: a 4-character value
(year only) gets `-07-01` appended; then a 7-character value (year-month)
gets `-15` appended; anything else passes through. -/
def imputeDeathStr (s : String) : String :=
  let s1 := if s.length = 4 then s ++ "-07-01" else s
  if s1.length = 7 then s1 ++ "-15" else s1

/-- Event indicator, nsclc.py line 2821:
`df.event = df.DateOfDeath.notna().astype(Int64)`. -/
def mortEvent (death : Option Int) : Int :=
  if death.isSome then 1 else 0

/-- Duration, nsclc.py lines 2940-2944 and 2951:
`np.where(event == 0, last_ehr_activity - index, DateOfDeath - index)`.
When no supplementary activity source was provided the code computes
`DateOfDeath - index` directly (line 2951), which coincides with this
definition at `lastAct = none`. -/
def mortDuration (idx : Int) (death : Option Int) (lastAct : Option Int) : Option Int :=
  if mortEvent death = 0 then lastAct.map (fun a => a - idx)
  else death.map (fun d => d - idx)

/-- Last EHR activity for one patient: the maximum over all non-null
activity dates collected from the supplementary files
(nsclc.py lines 2849-2932: per-source `groupby(PatientID).max()` followed by
a row-wise `max` across sources, which equals one overall maximum). -/
def lastActivity (acts : List (Option Int)) : Option Int :=
  listMaxInt (acts.filterMap id)

/-- Survival tuple (event, duration) for one patient. -/
def mortRow (idx : Int) (death : Option Int) (acts : List (Option Int)) : Int × Option Int :=
  (mortEvent death, mortDuration idx death (lastActivity acts))

/-- Left merge of the roster onto the raw mortality file,
nsclc.py lines 2812-2817: `pd.merge(index_date_df, df, on=PatientID,
how=left)`.  Every roster row is kept; a roster patient matching several
file rows yields several output rows; a roster patient with no file row
gets a null death date. -/
def leftJoinMortality (roster : List (String × Int)) (file : List (String × Option String)) :
    List (String × Int × Option String) :=
  roster.flatMap (fun r =>
    match file.filter (fun f => f.1 == r.1) with
    | [] => [(r.1, r.2, none)]
    | ms => ms.map (fun m => (r.1, r.2, m.2)))

/-- One output row of `process_mortality` from one merged row: impute and
parse the death date, collect the activity dates of that patient, and build
the survival tuple. -/
def mortOutRow (acts : List (String × Int)) (row : String × Int × Option String) :
    String × Int × Option Int :=
  let death := row.2.2.bind (fun s => parseDateToDay (imputeDeathStr s))
  let patientActs := (acts.filter (fun a => a.1 == row.1)).map (fun a => some a.2)
  let t := mortRow row.2.1 death patientActs
  (row.1, t.1, t.2)

/-- Full `process_mortality` pipeline: impute and parse death dates, merge
the roster, compute the per-patient survival tuple.  `acts` is the flattened
(PatientID, activity-day) list collected from the supplementary files.
Output rows are (PatientID, event, duration). -/
def process_mortality (roster : List (String × Int)) (file : List (String × Option String))
    (acts : List (String × Int)) : List (String × Int × Option Int) :=
  (leftJoinMortality roster file).map (mortOutRow acts)

/-- C2: in process_mortality, event = 1 iff a (possibly imputed) death date
is present, else 0; when event = 1 the duration is death date minus index
date regardless of activity dates; when event = 0 the duration is the
maximum of the non-null supplied activity dates minus the index date when
at least one exists, and null otherwise. -/
theorem mortality_event_duration (idx : Int) (death : Option Int) (acts : List (Option Int)) :
    (mortEvent death = 1 ↔ death.isSome = true) ∧
    ((mortRow idx death acts).1 = mortEvent death) ∧
    (∀ d, death = some d → (mortRow idx death acts).2 = some (d - idx)) ∧
    (death = none → acts.filterMap id = [] → (mortRow idx death acts).2 = none) ∧
    (death = none → ∀ r, (mortRow idx death acts).2 = some r →
      ∃ a, a ∈ acts.filterMap id ∧ r = a - idx ∧ ∀ b ∈ acts.filterMap id, b ≤ a) ∧
    (death = none → acts.filterMap id ≠ [] → ((mortRow idx death acts).2).isSome = true) := by
  refine ⟨?_, rfl, ?_, ?_, ?_, ?_⟩
  · cases death <;> simp [mortEvent]
  · intro d hd
    subst hd
    rfl
  · intro hd hacts
    subst hd
    have h : (mortRow idx none acts).2 = (lastActivity acts).map (fun a => a - idx) := rfl
    rw [h, lastActivity, hacts]
    rfl
  · intro hd r hr
    subst hd
    have h : (mortRow idx none acts).2 = (lastActivity acts).map (fun a => a - idx) := rfl
    rw [h, lastActivity] at hr
    rcases hm : listMaxInt (acts.filterMap id) with _ | m
    · rw [hm] at hr; simp at hr
    · rw [hm] at hr
      simp at hr
      obtain ⟨hmem, hmax⟩ := listMaxInt_spec hm
      exact ⟨m, hmem, by omega, hmax⟩
  · intro hd hne
    subst hd
    have h : (mortRow idx none acts).2 = (lastActivity acts).map (fun a => a - idx) := rfl
    rw [h, lastActivity]
    cases hacts : acts.filterMap id with
    | nil => exact absurd hacts hne
    | cons x t => simp [listMaxInt]

/-- Witness for C2 at a concrete input: index day 0, death day 181,
activity day 9 present: duration is death minus index, 181 days. -/
theorem mortality_event_duration_witness :
    (some (181 : Int) = some 181) ∧ (mortRow 0 (some 181) [some 9, none]).2 = some (181 - 0) :=
  ⟨rfl, (mortality_event_duration 0 (some 181) [some 9, none]).2.2.1 181 rfl⟩

/-- C3: death-date strings of length 4 (year only) are imputed to July 1 of
that year, length 7 (year-month) to the 15th of the month, full dates pass
through; concretely the string 2021 becomes 2021-07-01, which parses to the
date (2021, 7, 1) and produces event = 1. -/
theorem mortality_death_imputation :
    (∀ s : String, s.length = 4 → imputeDeathStr s = s ++ "-07-01") ∧
    (∀ s : String, s.length = 7 → imputeDeathStr s = s ++ "-15") ∧
    (∀ s : String, s.length ≠ 4 → s.length ≠ 7 → imputeDeathStr s = s) ∧
    imputeDeathStr "2021" = "2021-07-01" ∧
    parseYMD (imputeDeathStr "2021") = some (2021, 7, 1) ∧
    mortEvent (parseDateToDay (imputeDeathStr "2021")) = 1 ∧
    parseDateToDay (imputeDeathStr "2021") = some (dateToDay 2021 7 1) ∧
    dateToDay 2021 7 1 - dateToDay 2021 1 1 = 181 := by
  refine ⟨?_, ?_, ?_, by decide, by decide, by decide, by decide, by decide⟩
  · intro s h
    have hlen : (s ++ "-07-01").length = 10 := by
      rw [String.length_append, h]; rfl
    simp [imputeDeathStr, h, hlen]
  · intro s h
    have h4 : s.length ≠ 4 := by omega
    simp [imputeDeathStr, h, h4]
  · intro s h4 h7
    simp [imputeDeathStr, h4, h7]

/-- Witness for C3: instantiates the length-4 imputation rule at 2021. -/
theorem mortality_death_imputation_witness :
    ("2021" : String).length = 4 ∧ imputeDeathStr "2021" = "2021" ++ "-07-01" :=
  ⟨by decide, mortality_death_imputation.1 "2021" (by decide)⟩

/-! ## Substring matching (Python `in` on strings) -/

def isPrefixB : List Char → List Char → Bool
  | [], _ => true
  | _ :: _, [] => false
  | a :: as, b :: bs => (a == b) && isPrefixB as bs

def containsSub : List Char → List Char → Bool
  | needle, [] => isPrefixB needle []
  | needle, c :: rest => isPrefixB needle (c :: rest) || containsSub needle rest

/-- Boolean translation of the Python expression `needle in hay`. -/
def strContains (needle hay : String) : Bool :=
  containsSub needle.toList hay.toList

/-! ## StatusClassifier: biomarker status aggregation
(nsclc.py lines 872-930, headneck.py lines 391-401). -/

/-- Ever-positive / only-negative / unknown classification of the set of a
patient's in-window biomarker results.  Direct translation of the `agg`
lambdas in `process_biomarkers`. -/
def classifyStatus (isPos isNeg : String → Bool) (vals : List String) : String :=
  if vals.any isPos then "positive"
  else if vals.any isNeg then "negative"
  else "unknown"

def mutationPositive (v : String) : Bool := strContains "Mutation positive" v

def mutationNegative (v : String) : Bool := strContains "Mutation negative" v

def rearrangementPositive (v : String) : Bool := strContains "Rearrangement present" v

def rearrangementNegative (v : String) : Bool := strContains "Rearrangement not present" v

/-- Exact positive vocabulary for MET, RET and NTRK (nsclc.py lines 899-906). -/
def metPositiveValues : List String :=
  ["Protein expression positive", "Mutation positive", "Amplification positive",
   "Rearrangement positive", "Other result type positive", "Unknown result type positive"]

def setPositive (v : String) : Bool := metPositiveValues.contains v

def setNegative (v : String) : Bool := strContains "Negative" v

def pdl1Positive (v : String) : Bool := strContains "PD-L1 positive" v

def pdl1Negative (v : String) : Bool := strContains "PD-L1 negative/not detected" v

/-- Boolean `any` is invariant under permutation of the list. -/
theorem any_of_perm {α : Type} (p : α → Bool) {l l2 : List α} (h : l.Perm l2) :
    l.any p = l2.any p := by
  induction h with
  | nil => rfl
  | cons a _ ih => simp [List.any_cons, ih]
  | swap a b l => simp [List.any_cons, Bool.or_left_comm]
  | trans _ _ ih1 ih2 => rw [ih1, ih2]

/-- C6: biomarker status is a set-membership rule with priority
positive before negative before unknown, evaluated over all of a patient's
in-window results, independent of chronological order; concretely,
an indeterminate and a positive result give positive in either order. -/
theorem biomarker_status_set_rule :
    (∀ (isPos isNeg : String → Bool) (vals : List String),
      (classifyStatus isPos isNeg vals = "positive" ↔ vals.any isPos = true) ∧
      (classifyStatus isPos isNeg vals = "negative" ↔
        vals.any isPos = false ∧ vals.any isNeg = true) ∧
      (classifyStatus isPos isNeg vals = "unknown" ↔
        vals.any isPos = false ∧ vals.any isNeg = false)) ∧
    (∀ (isPos isNeg : String → Bool) (l l2 : List String), l.Perm l2 →
      classifyStatus isPos isNeg l = classifyStatus isPos isNeg l2) ∧
    classifyStatus mutationPositive mutationNegative
      ["Mutation indeterminate", "Mutation positive"] = "positive" ∧
    classifyStatus mutationPositive mutationNegative
      ["Mutation positive", "Mutation indeterminate"] = "positive" ∧
    classifyStatus mutationPositive mutationNegative
      ["Mutation negative", "Mutation negative"] = "negative" ∧
    classifyStatus mutationPositive mutationNegative
      ["Mutation indeterminate"] = "unknown" := by
  refine ⟨?_, ?_, by decide, by decide, by decide, by decide⟩
  · intro isPos isNeg vals
    rcases h1 : vals.any isPos <;> rcases h2 : vals.any isNeg <;>
      simp [classifyStatus, h1, h2]
  · intro isPos isNeg l l2 h
    unfold classifyStatus
    rw [any_of_perm isPos h, any_of_perm isNeg h]

/-- Witness for C6: the order-independence part applied to a concrete
two-element permutation. -/
theorem biomarker_status_set_rule_witness :
    (["Mutation indeterminate", "Mutation positive"] : List String).Perm
      ["Mutation positive", "Mutation indeterminate"] ∧
    classifyStatus mutationPositive mutationNegative
        ["Mutation indeterminate", "Mutation positive"] =
      classifyStatus mutationPositive mutationNegative
        ["Mutation positive", "Mutation indeterminate"] :=
  ⟨by decide, biomarker_status_set_rule.2.1 mutationPositive mutationNegative _ _ (by decide)⟩

/-! ## Pipeline assembly: `DataProcessorNSCLC.process_biomarkers`
(nsclc.py lines 826-978). -/

/-- PD-L1 percent-staining ordinal encoding (nsclc.py lines 102-119;
the NaN key of the Python dict is handled in `stainOrd`). -/
def PDL1_PERCENT_STAINING_MAPPING : List (String × Nat) :=
  [("0%", 1), ("< 1%", 2), ("1%", 3), ("2% - 4%", 4), ("5% - 9%", 5), ("10% - 19%", 6),
   ("20% - 29%", 7), ("30% - 39%", 8), ("40% - 49%", 9), ("50% - 59%", 10), ("60% - 69%", 11),
   ("70% - 79%", 12), ("80% - 89%", 13), ("90% - 99%", 14), ("100%", 15)]

/-- Ordinal value of a raw PercentStaining cell: the Python mapping sends
NaN to 0 and unmapped strings to NaN. -/
def stainOrd (v : Option String) : Option Nat :=
  match v with
  | none => some 0
  | some s => List.lookup s PDL1_PERCENT_STAINING_MAPPING

/-- Reverse staining map; ordinal 0 maps back to NaN in the Python reverse
dict, hence `none` here. -/
def stainRev (n : Nat) : Option String :=
  List.lookup n (PDL1_PERCENT_STAINING_MAPPING.map (fun e => (e.2, e.1)))

def listMaxNat : List Nat → Option Nat
  | [] => none
  | x :: t => some (t.foldl max x)

/-- One row of Enhanced_AdvNSCLCBiomarkers.csv (the columns the pipeline
reads); dates are day numbers, missing cells are `none`. -/
structure BioRow where
  pid : String
  resultDate : Option Int
  specimenDate : Option Int
  name : String
  status : String
  staining : Option String

/-- One biomarker event after the roster merge: day offset from the index
date (nsclc.py line 849), with missing ResultDate imputed from
SpecimenReceivedDate (line 834). -/
structure BioEv where
  pid : String
  name : String
  status : String
  staining : Option String
  offset : Option Int

def ntrkNames : List String :=
  ["NTRK1", "NTRK2", "NTRK3", "NTRK - unknown gene type", "NTRK - other"]

/-- Window membership test for a biomarker offset (nsclc.py lines 852-860);
a missing date never passes the comparison, as in pandas. -/
def inBioWindow (daysBefore : Option Int) (daysAfter : Int) (off : Option Int) : Bool :=
  match off with
  | none => false
  | some d =>
    match daysBefore with
    | none => decide (d ≤ daysAfter)
    | some b => decide (d ≤ daysAfter) && decide (-b ≤ d)

/-- Roster filter and left merge of the biomarker file with the index dates
(nsclc.py lines 839-849). -/
def bioMerged (roster : List (String × Int)) (file : List BioRow) : List BioEv :=
  file.filterMap (fun r =>
    (List.lookup r.pid roster).map (fun ix =>
      { pid := r.pid, name := r.name, status := r.status, staining := r.staining,
        offset := (r.resultDate.orElse (fun _ => r.specimenDate)).map (fun d => d - ix) }))

/-- Per-biomarker status aggregate: groupby PatientID and classify the
status set (nsclc.py lines 873-930). -/
def statusAgg (events : List BioEv) (bname : String) (isPos isNeg : String → Bool) :
    List (String × Option String) :=
  (groupPairs ((events.filter (fun e => e.name == bname)).map (fun e => (e.pid, e.status)))).map
    (fun g => (g.1, some (classifyStatus isPos isNeg g.2)))

/-- PD-L1 percent-staining aggregate: positive PD-L1 rows only, maximum
ordinal per patient, mapped back to the staining label
(nsclc.py lines 932-948). -/
def stainingAgg (events : List BioEv) : List (String × Option String) :=
  (groupPairs ((events.filter
      (fun e => e.name == "PDL1" && e.status == "PD-L1 positive")).map
      (fun e => (e.pid, stainOrd e.staining)))).map
    (fun g => (g.1, (listMaxNat (g.2.filterMap id)).bind stainRev))

/-- Left merge of one aggregate column onto the assembled output
(nsclc.py lines 953-956): pandas `merge(..., how=left)` keeps every left row,
duplicates a left row once per matching right row, and fills `none` when
there is no match. -/
def mergeColumn (rows : List (String × List (Option String)))
    (agg : List (String × Option String)) : List (String × List (Option String)) :=
  rows.flatMap (fun row =>
    match agg.filter (fun a => a.1 == row.1) with
    | [] => [(row.1, row.2 ++ [none])]
    | ms => ms.map (fun m => (row.1, row.2 ++ [m.2])))

/-- Window filtering and NTRK renaming of the merged biomarker events
(nsclc.py lines 852-867). -/
def bioRenamed (roster : List (String × Int)) (file : List BioRow)
    (daysBefore : Option Int) (daysAfter : Int) : List BioEv :=
  ((bioMerged roster file).filter (fun e => inBioWindow daysBefore daysAfter e.offset)).map
    (fun e => if ntrkNames.contains e.name then { e with name := "NTRK" } else e)

/-- The ten per-biomarker aggregate tables, in the merge order of
nsclc.py lines 953-956. -/
def bioAggs (events : List BioEv) : List (List (String × Option String)) :=
  [statusAgg events "EGFR" mutationPositive mutationNegative,
   statusAgg events "KRAS" mutationPositive mutationNegative,
   statusAgg events "BRAF" mutationPositive mutationNegative,
   statusAgg events "ALK" rearrangementPositive rearrangementNegative,
   statusAgg events "ROS1" rearrangementPositive rearrangementNegative,
   statusAgg events "MET" setPositive setNegative,
   statusAgg events "RET" setPositive setNegative,
   statusAgg events "NTRK" setPositive setNegative,
   statusAgg events "PDL1" pdl1Positive pdl1Negative,
   stainingAgg events]

/-- Full `process_biomarkers` assembly: start from the roster PatientIDs and
left-merge the nine status aggregates and the staining aggregate
(nsclc.py lines 950-956). -/
def process_biomarkers (roster : List (String × Int)) (file : List BioRow)
    (daysBefore : Option Int) (daysAfter : Int) : List (String × List (Option String)) :=
  (bioAggs (bioRenamed roster file daysBefore daysAfter)).foldl mergeColumn
    (roster.map (fun r => (r.1, ([] : List (Option String)))))

theorem filter_key_len_le_one {β : Type} (tbl : List (String × β))
    (h : (tbl.map Prod.fst).Nodup) (k : String) :
    (tbl.filter (fun a => a.1 == k)).length ≤ 1 := by
  induction tbl with
  | nil => simp
  | cons a t ih =>
    rw [List.map_cons, List.nodup_cons] at h
    obtain ⟨hnotin, hnd⟩ := h
    by_cases hk : a.1 = k
    · have hfil : t.filter (fun p => p.1 == k) = [] := by
        apply List.filter_eq_nil_iff.mpr
        intro p hp hbeq
        have hap : a.1 = p.1 := by rw [hk, beq_iff_eq.mp hbeq]
        rw [hap] at hnotin
        exact hnotin (List.mem_map_of_mem Prod.fst hp)
      rw [List.filter_cons, if_pos (beq_iff_eq.mpr hk), hfil]
      simp
    · rw [List.filter_cons, if_neg (by simp [hk])]
      exact ih hnd

theorem mergeColumn_fst (rows : List (String × List (Option String)))
    (agg : List (String × Option String)) (h : (agg.map Prod.fst).Nodup) :
    (mergeColumn rows agg).map Prod.fst = rows.map Prod.fst := by
  induction rows with
  | nil => rfl
  | cons r rs ih =>
    unfold mergeColumn
    rw [List.flatMap_cons, List.map_append]
    unfold mergeColumn at ih
    rw [ih, List.map_cons]
    have hlen := filter_key_len_le_one agg h r.1
    rcases hf : agg.filter (fun a => a.1 == r.1) with _ | ⟨m, ms⟩
    · rw [hf]; rfl
    · rw [hf] at hlen ⊢
      cases ms with
      | nil => rfl
      | cons m2 ms2 => simp at hlen

theorem statusAgg_keys_nodup (events : List BioEv) (bname : String)
    (isPos isNeg : String → Bool) :
    ((statusAgg events bname isPos isNeg).map Prod.fst).Nodup := by
  unfold statusAgg
  rw [List.map_map]
  exact groupPairs_keys_nodup _

theorem stainingAgg_keys_nodup (events : List BioEv) :
    ((stainingAgg events).map Prod.fst).Nodup := by
  unfold stainingAgg
  rw [List.map_map]
  exact groupPairs_keys_nodup _

theorem foldl_mergeColumn_fst (aggs : List (List (String × Option String)))
    (rows : List (String × List (Option String)))
    (h : ∀ agg ∈ aggs, (agg.map Prod.fst).Nodup) :
    (aggs.foldl mergeColumn rows).map Prod.fst = rows.map Prod.fst := by
  induction aggs generalizing rows with
  | nil => rfl
  | cons a t ih =>
    rw [List.foldl_cons, ih _ (fun agg hm => h agg (List.mem_cons_of_mem a hm)),
      mergeColumn_fst rows a (h a (List.mem_cons_self a t))]

theorem bioAggs_keys_nodup (events : List BioEv) :
    ∀ agg ∈ bioAggs events, (agg.map Prod.fst).Nodup := by
  intro agg hm
  unfold bioAggs at hm
  simp only [List.mem_cons, List.not_mem_nil, or_false] at hm
  rcases hm with rfl | rfl | rfl | rfl | rfl | rfl | rfl | rfl | rfl | rfl
  all_goals first
    | exact statusAgg_keys_nodup _ _ _ _
    | exact stainingAgg_keys_nodup _

theorem leftJoinMortality_fst (roster : List (String × Int))
    (file : List (String × Option String)) (h : (file.map Prod.fst).Nodup) :
    (leftJoinMortality roster file).map Prod.fst = roster.map Prod.fst := by
  induction roster with
  | nil => rfl
  | cons r rs ih =>
    unfold leftJoinMortality
    rw [List.flatMap_cons, List.map_append]
    unfold leftJoinMortality at ih
    rw [ih, List.map_cons]
    have hlen := filter_key_len_le_one file h r.1
    rcases hf : file.filter (fun f => f.1 == r.1) with _ | ⟨m, ms⟩
    · rw [hf]; rfl
    · rw [hf] at hlen ⊢
      cases ms with
      | nil => rfl
      | cons m2 ms2 => simp at hlen

theorem leftJoinMortality_mem (roster : List (String × Int))
    (file : List (String × Option String)) :
    ∀ r ∈ roster, r.1 ∈ (leftJoinMortality roster file).map Prod.fst := by
  induction roster with
  | nil => simp
  | cons a t ih =>
    intro r hr
    unfold leftJoinMortality
    rw [List.flatMap_cons, List.map_append]
    rcases List.mem_cons.mp hr with rfl | hr
    · apply List.mem_append_left
      rcases hf : file.filter (fun f => f.1 == r.1) with _ | ⟨m, ms⟩
      · rw [hf]; simp
      · rw [hf, List.map_map]
        simp [Function.comp]
    · exact List.mem_append_right _ (ih r hr)

/-- C1 (amended): every pipeline that assembles its output by left-joining
per-patient groupby aggregates onto the roster returns exactly one row per
roster PatientID, in roster order (shown for process_biomarkers, whose ten
aggregate tables all have unique keys); a roster patient with no in-window
events receives null in every merged column.  process_mortality instead
left-joins the raw mortality file, so it returns one row per roster patient
only when the mortality file has no duplicated PatientID; every roster
patient always appears at least once. -/
theorem roster_left_join_completeness :
    (∀ (roster : List (String × Int)) (file : List BioRow)
       (daysBefore : Option Int) (daysAfter : Int),
      (process_biomarkers roster file daysBefore daysAfter).map Prod.fst =
        roster.map Prod.fst) ∧
    (∀ (roster : List (String × Int)) (file : List (String × Option String))
       (acts : List (String × Int)), (file.map Prod.fst).Nodup →
      (process_mortality roster file acts).map Prod.fst = roster.map Prod.fst) ∧
    (∀ (roster : List (String × Int)) (file : List (String × Option String))
       (acts : List (String × Int)),
      ∀ r ∈ roster, r.1 ∈ (process_mortality roster file acts).map Prod.fst) ∧
    process_biomarkers [("P1", 0), ("P2", 0)]
      [{ pid := "P1", resultDate := some 0, specimenDate := none, name := "EGFR",
         status := "Mutation positive", staining := none }] none 0 =
      [("P1", [some "positive", none, none, none, none, none, none, none, none, none]),
       ("P2", [none, none, none, none, none, none, none, none, none, none])] := by
  refine ⟨?_, ?_, ?_, by decide⟩
  · intro roster file daysBefore daysAfter
    unfold process_biomarkers
    rw [foldl_mergeColumn_fst _ _ (bioAggs_keys_nodup _), List.map_map]
    rfl
  · intro roster file acts h
    unfold process_mortality
    rw [List.map_map]
    rw [show (Prod.fst ∘ mortOutRow acts) = Prod.fst from rfl]
    exact leftJoinMortality_fst roster file h
  · intro roster file acts r hr
    unfold process_mortality
    rw [List.map_map]
    rw [show (Prod.fst ∘ mortOutRow acts) = Prod.fst from rfl]
    exact leftJoinMortality_mem roster file r hr

/-- Witness for C1: a mortality file with unique PatientIDs yields exactly
the roster ids. -/
theorem roster_left_join_completeness_witness :
    ((([("P1", some "2021-03-01")] : List (String × Option String)).map Prod.fst).Nodup) ∧
    (process_mortality [("P1", 0)] [("P1", some "2021-03-01")] []).map Prod.fst = ["P1"] :=
  ⟨by decide,
   roster_left_join_completeness.2.1 [("P1", 0)] [("P1", some "2021-03-01")] [] (by decide)⟩

/-- Counterexample to C1 as stated: with roster [P1] and a mortality file
containing two rows for P1, process_mortality returns two rows for the
single roster patient, so the output does not contain exactly one row per
roster PatientID. -/
theorem roster_left_join_completeness_cex :
    ((process_mortality [("P1", 0)]
        [("P1", some "2021-03-01"), ("P1", some "2021-04-01")] []).map Prod.fst =
      ["P1", "P1"]) ∧
    ¬(((process_mortality [("P1", 0)]
        [("P1", some "2021-03-01"), ("P1", some "2021-04-01")] []).map Prod.fst).count "P1"
      = 1) := by
  constructor
  · rfl
  · decide

/-! ## LongitudinalSummarizer slope: `DataProcessorNSCLC.process_labs`
(nsclc.py lines 2150-2165). -/

/-- Numerator of the ordinary-least-squares slope of value against day
offset, as computed by `np.polyfit(x, y, 1)[0]`. -/
def slopeNum (pts : List (ℚ × ℚ)) : ℚ :=
  (pts.length : ℚ) * (pts.map (fun p => p.1 * p.2)).sum -
    (pts.map Prod.fst).sum * (pts.map Prod.snd).sum

/-- Denominator of the OLS slope. -/
def slopeDen (pts : List (ℚ × ℚ)) : ℚ :=
  (pts.length : ℚ) * (pts.map (fun p => p.1 * p.1)).sum -
    (pts.map Prod.fst).sum * (pts.map Prod.fst).sum

/-- Per-group slope computation of `process_labs` (nsclc.py lines 2153-2159):
the OLS slope when the group has at least 2 value/offset pairs with at least
2 distinct offsets, NaN otherwise.  (After the `TestResultCleaned.notna()`
filter on line 2096 every pair in the group is non-null, so the two
`notna().sum() > 1` guards of the source reduce to the length guard.) -/
def labSlope (pts : List (ℚ × ℚ)) : Option ℚ :=
  if 1 < pts.length ∧ 1 < ((pts.map Prod.fst).dedup).length then
    some (slopeNum pts / slopeDen pts)
  else none

theorem sum_map_sq_sub (a : ℚ) (t : List ℚ) :
    (t.map (fun x => (a - x) * (a - x))).sum =
      (t.length : ℚ) * (a * a) - 2 * a * t.sum + (t.map (fun x => x * x)).sum := by
  induction t with
  | nil => simp
  | cons x xs ih =>
    simp only [List.map_cons, List.sum_cons, List.length_cons, ih]
    push_cast
    ring

/-- Scaled variance of a list: the OLS denominator for its own entries. -/
def varDen (l : List ℚ) : ℚ :=
  (l.length : ℚ) * (l.map (fun x => x * x)).sum - l.sum * l.sum

theorem varDen_cons (a : ℚ) (t : List ℚ) :
    varDen (a :: t) = varDen t + (t.map (fun x => (a - x) * (a - x))).sum := by
  unfold varDen
  rw [sum_map_sq_sub]
  simp only [List.map_cons, List.sum_cons, List.length_cons]
  push_cast
  ring

theorem sum_map_sq_sub_nonneg (a : ℚ) (t : List ℚ) :
    0 ≤ (t.map (fun x => (a - x) * (a - x))).sum := by
  induction t with
  | nil => simp
  | cons x xs ih =>
    simp only [List.map_cons, List.sum_cons]
    nlinarith [mul_self_nonneg (a - x)]

theorem varDen_nonneg (l : List ℚ) : 0 ≤ varDen l := by
  induction l with
  | nil => simp [varDen]
  | cons a t ih =>
    rw [varDen_cons]
    have := sum_map_sq_sub_nonneg a t
    linarith

theorem varDen_pos (l : List ℚ) (x y : ℚ) (hx : x ∈ l) (hy : y ∈ l) (hxy : x ≠ y) :
    0 < varDen l := by
  induction l with
  | nil => simp at hx
  | cons a t ih =>
    rw [varDen_cons]
    rcases List.mem_cons.mp hx with rfl | hx2
    · rcases List.mem_cons.mp hy with rfl | hy2
      · exact absurd rfl hxy
      · have h1 : (x - y) * (x - y) ≤ (t.map (fun z => (x - z) * (x - z))).sum := by
          apply List.single_le_sum
          · intro b hb
            simp only [List.mem_map] at hb
            obtain ⟨z, _, rfl⟩ := hb
            exact mul_self_nonneg _
          · exact List.mem_map_of_mem _ hy2
        have h2 : 0 < (x - y) * (x - y) := mul_self_pos.mpr (sub_ne_zero.mpr hxy)
        have := varDen_nonneg t
        linarith
    · rcases List.mem_cons.mp hy with rfl | hy2
      · have h1 : (y - x) * (y - x) ≤ (t.map (fun z => (y - z) * (y - z))).sum := by
          apply List.single_le_sum
          · intro b hb
            simp only [List.mem_map] at hb
            obtain ⟨z, _, rfl⟩ := hb
            exact mul_self_nonneg _
          · exact List.mem_map_of_mem _ hx2
        have h2 : 0 < (y - x) * (y - x) :=
          mul_self_pos.mpr (sub_ne_zero.mpr (fun h => hxy h.symm))
        have := varDen_nonneg t
        linarith
      · have hpos := ih hx2 hy2
        have := sum_map_sq_sub_nonneg a t
        linarith

theorem dedup_two {l : List ℚ} (h : 1 < l.dedup.length) :
    ∃ x ∈ l, ∃ y ∈ l, x ≠ y := by
  rcases hd : l.dedup with _ | ⟨a, t⟩
  · rw [hd] at h; simp at h
  · cases t with
    | nil => rw [hd] at h; simp at h
    | cons b t2 =>
      have hnd : l.dedup.Nodup := List.nodup_dedup l
      rw [hd, List.nodup_cons] at hnd
      have hab : a ≠ b := by
        intro hq
        exact hnd.1 (hq ▸ List.mem_cons_self b t2)
      have ha : a ∈ l := List.mem_dedup.mp (by rw [hd]; exact List.mem_cons_self _ _)
      have hb : b ∈ l := List.mem_dedup.mp
        (by rw [hd]; exact List.mem_cons_of_mem a (List.mem_cons_self _ _))
      exact ⟨a, ha, b, hb, hab⟩

theorem slopeDen_eq_varDen (pts : List (ℚ × ℚ)) :
    slopeDen pts = varDen (pts.map Prod.fst) := by
  unfold slopeDen varDen
  rw [List.length_map, List.map_map]
  rfl

theorem sum_map_linear (pts : List (ℚ × ℚ)) (s b : ℚ) :
    (pts.map (fun p => p.2 - (s * p.1 + b))).sum =
      (pts.map Prod.snd).sum - s * (pts.map Prod.fst).sum - (pts.length : ℚ) * b := by
  induction pts with
  | nil => simp
  | cons p t ih =>
    simp only [List.map_cons, List.sum_cons, List.length_cons, ih]
    push_cast
    ring

theorem sum_map_xlinear (pts : List (ℚ × ℚ)) (s b : ℚ) :
    (pts.map (fun p => p.1 * (p.2 - (s * p.1 + b)))).sum =
      (pts.map (fun p => p.1 * p.2)).sum - s * (pts.map (fun p => p.1 * p.1)).sum -
        b * (pts.map Prod.fst).sum := by
  induction pts with
  | nil => simp
  | cons p t ih =>
    simp only [List.map_cons, List.sum_cons, ih]
    ring

/-- C4: the per-lab slope is null exactly when there are not at least two
value/offset pairs with at least two distinct offsets, and otherwise it is
the ordinary-least-squares slope: together with the fitted intercept it
satisfies both normal equations of the least-squares line.  Concretely a
single observation gives null, two observations at the same offset give
null, and observations (offset -10, value 10), (offset 0, value 20) give
slope 1. -/
theorem lab_slope_ols :
    (∀ pts : List (ℚ × ℚ), labSlope pts = none ↔
      ¬(1 < pts.length ∧ 1 < ((pts.map Prod.fst).dedup).length)) ∧
    (∀ (pts : List (ℚ × ℚ)) (s : ℚ), labSlope pts = some s →
      ∃ b : ℚ, (pts.map (fun p => p.2 - (s * p.1 + b))).sum = 0 ∧
        (pts.map (fun p => p.1 * (p.2 - (s * p.1 + b)))).sum = 0) ∧
    labSlope [(-10, 10), (0, 20)] = some 1 ∧
    labSlope [(0, 10)] = none ∧
    labSlope [(5, 10), (5, 20)] = none := by
  have hex1 : labSlope [(-10, 10), (0, 20)] = some 1 := by
    unfold labSlope
    rw [if_pos (by decide)]
    norm_num [slopeNum, slopeDen]
  have hex2 : labSlope [(0, 10)] = none := by
    unfold labSlope
    rw [if_neg (by decide)]
  have hex3 : labSlope [(5, 10), (5, 20)] = none := by
    unfold labSlope
    rw [if_neg (by decide)]
  refine ⟨?_, ?_, hex1, hex2, hex3⟩
  · intro pts
    unfold labSlope
    split_ifs with hcond
    · simp [hcond]
    · simp [hcond]
  · intro pts s hs
    unfold labSlope at hs
    split_ifs at hs with hcond
    obtain ⟨hlen, hded⟩ := hcond
    have hseq : s = slopeNum pts / slopeDen pts := (Option.some.inj hs).symm
    obtain ⟨x, hx, y, hy, hxy⟩ := dedup_two hded
    have hDpos : 0 < varDen (pts.map Prod.fst) := varDen_pos _ x y hx hy hxy
    have hD : slopeDen pts ≠ 0 := by
      rw [slopeDen_eq_varDen]
      exact ne_of_gt hDpos
    have hn : (pts.length : ℚ) ≠ 0 := by
      have : 0 < pts.length := by omega
      exact_mod_cast Nat.pos_iff_ne_zero.mp this
    refine ⟨((pts.map Prod.snd).sum - s * (pts.map Prod.fst).sum) / (pts.length : ℚ), ?_, ?_⟩
    · rw [sum_map_linear]
      field_simp
    · rw [sum_map_xlinear, hseq]
      unfold slopeNum slopeDen at *
      field_simp
      ring

/-- Witness for C4: the normal equations instantiated at the two concrete
observations of the claim, with fitted slope 1. -/
theorem lab_slope_ols_witness :
    ∃ b : ℚ, (([(-10, 10), (0, 20)] : List (ℚ × ℚ)).map (fun p => p.2 - (1 * p.1 + b))).sum = 0 ∧
      (([(-10, 10), (0, 20)] : List (ℚ × ℚ)).map (fun p => p.1 * (p.2 - (1 * p.1 + b)))).sum = 0 :=
  lab_slope_ols.2.1 [(-10, 10), (0, 20)] 1 lab_slope_ols.2.2.1

/-! ## NearestValueSelector: `process_ecog` (nsclc.py lines 1090-1105) and
`process_vitals` weight selection (nsclc.py lines 1303-1315).

Both call sites sort rows by (PatientID, absolute day offset, value) and
take the first row of each patient group; for ECOG the value sort is
descending (worse score wins a tie), for weight ascending (smaller weight
wins a tie).  A row is (day offset, value). -/

/-- Comparison of two rows under the sort order of the call site: keep the
row with the smaller absolute offset; on a tie keep the higher value when
`tieHigh` (ECOG) and the lower value otherwise (weight).  On a full key tie
the earlier row is kept. -/
def pickBetter (tieHigh : Bool) (a b : Int × ℚ) : Int × ℚ :=
  if abs b.1 < abs a.1 then b
  else if abs a.1 < abs b.1 then a
  else if tieHigh then (if a.2 < b.2 then b else a)
  else (if b.2 < a.2 then b else a)

/-- First-ranked row of a patient group under the call-site sort order
(`sort_values(...).groupby(PatientID).first()`). -/
def selectNearest (tieHigh : Bool) : List (Int × ℚ) → Option (Int × ℚ)
  | [] => none
  | r :: rs => some (rs.foldl (pickBetter tieHigh) r)

/-- Row `a` ranks at least as high as row `b` under the call-site order. -/
def Beats (tieHigh : Bool) (a b : Int × ℚ) : Prop :=
  abs a.1 < abs b.1 ∨ (abs a.1 = abs b.1 ∧ (if tieHigh then b.2 ≤ a.2 else a.2 ≤ b.2))

theorem beats_refl (t : Bool) (a : Int × ℚ) : Beats t a a := by
  right
  exact ⟨rfl, by cases t <;> simp⟩

theorem beats_trans (t : Bool) {a b c : Int × ℚ}
    (h1 : Beats t a b) (h2 : Beats t b c) : Beats t a c := by
  cases t <;> simp only [Beats, if_true, if_false, Bool.false_eq_true] at * <;>
    rcases h1 with h1 | ⟨h1e, h1v⟩ <;> rcases h2 with h2 | ⟨h2e, h2v⟩
  · exact Or.inl (lt_trans h1 h2)
  · exact Or.inl (lt_of_lt_of_le h1 (le_of_eq h2e))
  · exact Or.inl (lt_of_le_of_lt (le_of_eq h1e) h2)
  · exact Or.inr ⟨h1e.trans h2e, le_trans h1v h2v⟩
  · exact Or.inl (lt_trans h1 h2)
  · exact Or.inl (lt_of_lt_of_le h1 (le_of_eq h2e))
  · exact Or.inl (lt_of_le_of_lt (le_of_eq h1e) h2)
  · exact Or.inr ⟨h1e.trans h2e, le_trans h2v h1v⟩

theorem pickBetter_cases (t : Bool) (a b : Int × ℚ) :
    pickBetter t a b = a ∨ pickBetter t a b = b := by
  unfold pickBetter
  split_ifs <;> simp

theorem pickBetter_beats_left (t : Bool) (a b : Int × ℚ) :
    Beats t (pickBetter t a b) a := by
  unfold pickBetter
  split_ifs with h1 h2 h3 h4 h5
  · exact Or.inl h1
  · exact beats_refl t a
  · exact Or.inr ⟨le_antisymm (not_lt.mp h2) (not_lt.mp h1), by simp [Beats, h3, le_of_lt h4]⟩
  · exact beats_refl t a
  · exact Or.inr ⟨le_antisymm (not_lt.mp h2) (not_lt.mp h1), by simp [Beats, h3, le_of_lt h5]⟩
  · exact beats_refl t a

theorem pickBetter_beats_right (t : Bool) (a b : Int × ℚ) :
    Beats t (pickBetter t a b) b := by
  unfold pickBetter
  split_ifs with h1 h2 h3 h4 h5
  · exact beats_refl t b
  · exact Or.inl h2
  · exact beats_refl t b
  · exact Or.inr ⟨le_antisymm (not_lt.mp h1) (not_lt.mp h2), by simp [h3, not_lt.mp h4]⟩
  · exact beats_refl t b
  · exact Or.inr ⟨le_antisymm (not_lt.mp h1) (not_lt.mp h2), by simp [h3, not_lt.mp h5]⟩

theorem foldl_pickBetter_spec (t : Bool) (rs : List (Int × ℚ)) (r : Int × ℚ) :
    (rs.foldl (pickBetter t) r = r ∨ rs.foldl (pickBetter t) r ∈ rs) ∧
    Beats t (rs.foldl (pickBetter t) r) r ∧
    ∀ x ∈ rs, Beats t (rs.foldl (pickBetter t) r) x := by
  induction rs generalizing r with
  | nil => exact ⟨Or.inl rfl, beats_refl t r, by simp⟩
  | cons b bs ih =>
    obtain ⟨hmem, hbr, hall⟩ := ih (pickBetter t r b)
    rw [List.foldl_cons]
    refine ⟨?_, ?_, ?_⟩
    · rcases hmem with h | h
      · rcases pickBetter_cases t r b with hc | hc
        · left; rw [h, hc]
        · right; rw [h, hc]; exact List.mem_cons_self b bs
      · right; exact List.mem_cons_of_mem b h
    · exact beats_trans t hbr (pickBetter_beats_left t r b)
    · intro x hx
      rcases List.mem_cons.mp hx with rfl | hx2
      · exact beats_trans t hbr (pickBetter_beats_right t r x)
      · exact hall x hx2

/-- C5: nearest-value selection returns a row of the group with minimal
absolute day offset, and an exact tie in absolute offset is broken in the
declared per-call-site direction: toward the higher value for ECOG
(`ascending=False` on EcogValue) and toward the smaller value for weight
(`ascending=True` on TestResultCleaned); concretely, scores 1 at offset -5
and 3 at offset 5 select 3, and weights 80 at -5 and 70 at 5 select 70. -/
theorem nearest_value_tie_break :
    (∀ (rows : List (Int × ℚ)) (r : Int × ℚ), selectNearest true rows = some r →
      r ∈ rows ∧ ∀ x ∈ rows, abs r.1 < abs x.1 ∨ (abs r.1 = abs x.1 ∧ x.2 ≤ r.2)) ∧
    (∀ (rows : List (Int × ℚ)) (r : Int × ℚ), selectNearest false rows = some r →
      r ∈ rows ∧ ∀ x ∈ rows, abs r.1 < abs x.1 ∨ (abs r.1 = abs x.1 ∧ r.2 ≤ x.2)) ∧
    selectNearest true [(-5, 1), (5, 3)] = some (5, 3) ∧
    selectNearest false [(-5, 80), (5, 70)] = some (5, 70) := by
  refine ⟨?_, ?_, by decide, by decide⟩
  · intro rows r hsel
    cases rows with
    | nil => simp [selectNearest] at hsel
    | cons r0 rs =>
      simp only [selectNearest, Option.some.injEq] at hsel
      obtain ⟨hmem, hbr, hall⟩ := foldl_pickBetter_spec true rs r0
      rw [hsel] at hmem hbr hall
      constructor
      · rcases hmem with h | h
        · rw [h]; exact List.mem_cons_self r0 rs
        · exact List.mem_cons_of_mem r0 h
      · intro x hx
        rcases List.mem_cons.mp hx with rfl | hx2
        · simpa [Beats] using hbr
        · simpa [Beats] using hall x hx2
  · intro rows r hsel
    cases rows with
    | nil => simp [selectNearest] at hsel
    | cons r0 rs =>
      simp only [selectNearest, Option.some.injEq] at hsel
      obtain ⟨hmem, hbr, hall⟩ := foldl_pickBetter_spec false rs r0
      rw [hsel] at hmem hbr hall
      constructor
      · rcases hmem with h | h
        · rw [h]; exact List.mem_cons_self r0 rs
        · exact List.mem_cons_of_mem r0 h
      · intro x hx
        rcases List.mem_cons.mp hx with rfl | hx2
        · simpa [Beats] using hbr
        · simpa [Beats] using hall x hx2

/-- Witness for C5: the ECOG part applied at the concrete tie of the claim,
where the worse score 3 wins. -/
theorem nearest_value_tie_break_witness :
    ((5 : Int), (3 : ℚ)) ∈ ([(-5, 1), (5, 3)] : List (Int × ℚ)) ∧
    ∀ x ∈ ([(-5, 1), (5, 3)] : List (Int × ℚ)),
      abs (5 : Int) < abs x.1 ∨ (abs (5 : Int) = abs x.1 ∧ x.2 ≤ 3) :=
  nearest_value_tie_break.1 [(-5, 1), (5, 3)] (5, 3) nearest_value_tie_break.2.2.1

/-! ## ComorbidityMapper scoring: `DataProcessorNSCLC.process_diagnosis`
(nsclc.py lines 2587-2636).

The pivoted Elixhauser tables give one 0/1 indicator per comorbidity per
patient per coding system; the two systems are combined by
`pd.concat(...).groupby(PatientID).max()` (line 2632) and the van Walraven
score is the weighted row sum over the combined indicators (line 2635). -/

/-- Comorbidity columns, in the order of the values of
`ICD_9_EXLIXHAUSER_MAPPING` (nsclc.py lines 150-237, used at line 2625). -/
def ELIX_COMORBIDITIES : List String :=
  ["chf", "cardiac_arrhythmias", "valvular_disease", "pulm_circulation", "pvd",
   "htn_uncomplicated", "htn_complicated", "paralysis", "other_neuro",
   "chronic_pulm_disease", "diabetes_uncomplicated", "diabetes_complicated",
   "hypothyroid", "renal_failure", "liver_disease", "pud", "aids_hiv", "lymphoma",
   "rheumatic", "coagulopathy", "obesity", "weight_loss", "fluid",
   "blood_loss_anemia", "deficiency_anemia", "alcohol_abuse", "drug_abuse",
   "psychoses", "depression"]

/-- Weight table `VAN_WALRAVEN_WEIGHTS` (nsclc.py lines 328-358). -/
def VAN_WALRAVEN_WEIGHTS : List (String × Int) :=
  [("chf", 7), ("cardiac_arrhythmias", 5), ("valvular_disease", -1),
   ("pulm_circulation", 4), ("pvd", 2), ("htn_uncomplicated", 0),
   ("htn_complicated", 0), ("paralysis", 7), ("other_neuro", 6),
   ("chronic_pulm_disease", 3), ("diabetes_uncomplicated", 0),
   ("diabetes_complicated", 0), ("hypothyroid", 0), ("renal_failure", 5),
   ("liver_disease", 11), ("pud", 0), ("aids_hiv", 0), ("lymphoma", 9),
   ("rheumatic", 0), ("coagulopathy", 3), ("obesity", -4), ("weight_loss", 6),
   ("fluid", 5), ("blood_loss_anemia", -2), ("deficiency_anemia", -2),
   ("alcohol_abuse", 0), ("drug_abuse", -7), ("psychoses", 0), ("depression", -3)]

def vwWeight (c : String) : Int :=
  (List.lookup c VAN_WALRAVEN_WEIGHTS).getD 0

/-- Van Walraven score of a per-patient 0/1 indicator row:
`row.mul(VAN_WALRAVEN_WEIGHTS).sum(axis=1)` (nsclc.py line 2635). -/
def vanWalravenScore (ind : String → Nat) : Int :=
  (ELIX_COMORBIDITIES.map (fun c => (ind c : Int) * vwWeight c)).sum

/-- Combination of the ICD-9 and ICD-10 indicator rows of one patient:
per-column maximum (nsclc.py line 2632). -/
def combineIndicators (a b : String → Nat) : String → Nat :=
  fun c => max (a c) (b c)

/-- Indicator row of a patient whose only mapped comorbidity is chf. -/
def chfIndicator (c : String) : Nat :=
  if c = "chf" then 1 else 0

/-- C7: per-patient indicators from ICD-9 and ICD-10 are combined by the
per-column maximum (logical OR) before scoring, so the score of the combined
row is the sum of the weights of the comorbidities present in either system:
a comorbidity mapped in both systems contributes its weight exactly once.
Concretely a patient with chf coded in both systems scores 7, not 14. -/
theorem van_walraven_union_no_double_count :
    (∀ a b : String → Nat, (∀ c, a c ≤ 1) → (∀ c, b c ≤ 1) →
      vanWalravenScore (combineIndicators a b) =
        (ELIX_COMORBIDITIES.map
          (fun c => if a c = 1 ∨ b c = 1 then vwWeight c else 0)).sum) ∧
    vanWalravenScore (combineIndicators chfIndicator chfIndicator) = 7 ∧
    vanWalravenScore chfIndicator = 7 := by
  refine ⟨?_, by decide, by decide⟩
  intro a b ha hb
  unfold vanWalravenScore
  apply congrArg List.sum
  apply List.map_congr_left
  intro c _
  unfold combineIndicators
  rcases Nat.le_one_iff_eq_zero_or_eq_one.mp (ha c) with h1 | h1 <;>
    rcases Nat.le_one_iff_eq_zero_or_eq_one.mp (hb c) with h2 | h2 <;>
    simp [h1, h2]

/-- Witness for C7: the union rule applied to the chf-in-both-systems
patient. -/
theorem van_walraven_union_witness :
    (∀ c, chfIndicator c ≤ 1) ∧
    vanWalravenScore (combineIndicators chfIndicator chfIndicator) =
      (ELIX_COMORBIDITIES.map
        (fun c => if chfIndicator c = 1 ∨ chfIndicator c = 1 then vwWeight c else 0)).sum := by
  have h : ∀ c, chfIndicator c ≤ 1 := by
    intro c
    unfold chfIndicator
    split_ifs <;> decide
  exact ⟨h, van_walraven_union_no_double_count.1 chfIndicator chfIndicator h h⟩

/-! ## Validation traces: error handling of the pipeline entry points
(nsclc.py `process_insurance` lines 1561-1593; headneck.py
`process_biomarkers` lines 321-347 and 471-485).

A call is modelled by whether the domain file was read and how the call
ended: a raised exception, a logged failure returning None (the blanket
`except` arm), or a returned table. -/

inductive CallResult where
  | raised (msg : String)
  | returnedNone
  | returnedTable
deriving DecidableEq

structure CallTrace where
  fileRead : Bool
  result : CallResult
deriving DecidableEq

/-- A finite `days_before` style parameter that is negative
(`None` means unbounded and is accepted). -/
def negWindow (w : Option Int) : Bool :=
  match w with
  | none => false
  | some b => decide (b < 0)

/-- Control flow of `DataProcessorNSCLC.process_insurance`: all validation,
including the `missing_date_strategy` enum check, precedes the
`pd.read_csv` inside the try block (nsclc.py lines 1561-1593). -/
def process_insurance_trace (hasPatientIDCol : Bool) (rosterIds : List String)
    (indexColPresent : Bool) (daysBefore : Option Int) (daysAfter : Int)
    (missingDateStrategy : String) : CallTrace :=
  if hasPatientIDCol = false then
    { fileRead := false, result := .raised "index_date_df must contain a PatientID column" }
  else if indexColPresent = false then
    { fileRead := false, result := .raised "index_date_column not found in index_date_df" }
  else if ¬ rosterIds.Nodup then
    { fileRead := false, result := .raised "index_date_df contains duplicate PatientID values" }
  else if negWindow daysBefore = true then
    { fileRead := false, result := .raised "days_before must be a non-negative integer or None" }
  else if daysAfter < 0 then
    { fileRead := false, result := .raised "days_after must be a non-negative integer" }
  else if ¬ (missingDateStrategy = "conservative" ∨ missingDateStrategy = "liberal") then
    { fileRead := false, result := .raised "missing_date_strategy must be conservative or liberal" }
  else
    { fileRead := true, result := .returnedTable }

/-- Control flow of `DataProcessorHeadNeck.process_biomarkers`: roster and
window validation precede the read (headneck.py lines 321-335), but the
`pdl1_result_type` enum is only checked inside the try block after
`pd.read_csv` (line 472), and the raised ValueError is caught by the
blanket except arm, which logs and returns None (lines 483-485). -/
def process_biomarkers_hn_trace (hasPatientIDCol : Bool) (rosterIds : List String)
    (indexColPresent : Bool) (daysBefore : Option Int) (daysAfter : Int)
    (pdl1ResultType : String) : CallTrace :=
  if hasPatientIDCol = false then
    { fileRead := false, result := .raised "index_date_df must contain a PatientID column" }
  else if indexColPresent = false then
    { fileRead := false, result := .raised "index_date_column not found in index_date_df" }
  else if ¬ rosterIds.Nodup then
    { fileRead := false, result := .raised "index_date_df contains duplicate PatientID values" }
  else if negWindow daysBefore = true then
    { fileRead := false, result := .raised "days_before must be a non-negative integer or None" }
  else if daysAfter < 0 then
    { fileRead := false, result := .raised "days_after must be a non-negative integer" }
  else if pdl1ResultType = "cps" then
    { fileRead := true, result := .returnedTable }
  else if pdl1ResultType = "percent_staining" then
    { fileRead := true, result := .returnedTable }
  else
    { fileRead := true, result := .returnedNone }

/-- C8 (amended): malformed roster input (missing PatientID column,
missing index column, duplicate roster ids) and negative window parameters
raise before the domain file is read, and in process_insurance the
unrecognized strategy enum value does too; but in the head-and-neck
process_biomarkers an unrecognized pdl1_result_type is only detected after
the file is read and the raised error is swallowed into a None return
rather than propagated to the caller. -/
theorem validation_before_file_read :
    (∀ (hasCol : Bool) (ids : List String) (idxCol : Bool) (db : Option Int) (da : Int)
       (strat : String),
      (hasCol = false ∨ idxCol = false ∨ ¬ ids.Nodup ∨ negWindow db = true ∨ da < 0 ∨
        ¬ (strat = "conservative" ∨ strat = "liberal")) →
      (process_insurance_trace hasCol ids idxCol db da strat).fileRead = false ∧
      ∃ m, (process_insurance_trace hasCol ids idxCol db da strat).result = .raised m) ∧
    (∀ (hasCol : Bool) (ids : List String) (idxCol : Bool) (db : Option Int) (da : Int)
       (ty : String),
      (hasCol = false ∨ idxCol = false ∨ ¬ ids.Nodup ∨ negWindow db = true ∨ da < 0) →
      (process_biomarkers_hn_trace hasCol ids idxCol db da ty).fileRead = false ∧
      ∃ m, (process_biomarkers_hn_trace hasCol ids idxCol db da ty).result = .raised m) ∧
    (∀ (ids : List String) (db : Option Int) (da : Int) (ty : String),
      ids.Nodup → negWindow db = false → 0 ≤ da →
      ty ≠ "cps" → ty ≠ "percent_staining" →
      process_biomarkers_hn_trace true ids true db da ty =
        { fileRead := true, result := .returnedNone }) := by
  refine ⟨?_, ?_, ?_⟩
  · intro hasCol ids idxCol db da strat hmal
    unfold process_insurance_trace
    split_ifs <;>
      first
        | exact ⟨rfl, _, rfl⟩
        | (rcases hmal with h | h | h | h | h | h <;> simp_all)
  · intro hasCol ids idxCol db da ty hmal
    unfold process_biomarkers_hn_trace
    split_ifs <;>
      first
        | exact ⟨rfl, _, rfl⟩
        | (rcases hmal with h | h | h | h | h <;> simp_all)
  · intro ids db da ty hnd hw hda hc hp
    unfold process_biomarkers_hn_trace
    have hda2 : ¬ (da < 0) := not_lt.mpr hda
    split_ifs <;> first | rfl | simp_all

/-- Witness for C8: a duplicate-roster insurance call raises without
reading the file. -/
theorem validation_before_file_read_witness :
    (¬ (["P1", "P1"] : List String).Nodup) ∧
    (process_insurance_trace true ["P1", "P1"] true none 0 "conservative").fileRead = false ∧
    ∃ m, (process_insurance_trace true ["P1", "P1"] true none 0 "conservative").result =
      .raised m :=
  ⟨by decide,
   validation_before_file_read.1 true ["P1", "P1"] true none 0 "conservative"
     (Or.inr (Or.inr (Or.inl (by decide))))⟩

/-- Counterexample to C8 as stated: a head-and-neck biomarkers call with a
valid roster but pdl1_result_type set to an unrecognized value reads the
domain file and then returns None; no validation exception reaches the
caller and the file read is not avoided. -/
theorem validation_before_file_read_cex :
    (process_biomarkers_hn_trace true ["P1"] true none 0 "bogus").fileRead = true ∧
    (process_biomarkers_hn_trace true ["P1"] true none 0 "bogus").result = .returnedNone ∧
    ∀ m, (process_biomarkers_hn_trace true ["P1"] true none 0 "bogus").result ≠ .raised m := by
  refine ⟨by decide, by decide, ?_⟩
  intro m h
  have h2 : (process_biomarkers_hn_trace true ["P1"] true none 0 "bogus").result =
      .returnedNone := by decide
  rw [h2] at h
  exact CallResult.noConfusion h

/-! ## Class-level lookup tables and their mutation
(nsclc.py lines 121-148 for the tables; lines 1673-1679 for the
`process_insurance` hybrid-entry insertion; lines 1883-1891 for the
`process_labs` merge of `additional_loinc_mappings`). -/

/-- `INSURANCE_MAPPING` class attribute (nsclc.py lines 121-130). -/
def INSURANCE_MAPPING : List (String × String) :=
  [("Commercial Health Plan", "commercial"), ("Medicare", "medicare"),
   ("Medicaid", "medicaid"), ("Other Payer - Type Unknown", "other_insurance"),
   ("Other Government Program", "other_insurance"),
   ("Patient Assistance Program", "other_insurance"), ("Self Pay", "other_insurance"),
   ("Workers Compensation", "other_insurance")]

/-- `LOINC_MAPPINGS` class attribute (nsclc.py lines 132-148). -/
def LOINC_MAPPINGS : List (String × List String) :=
  [("hemoglobin", ["718-7", "20509-6"]), ("wbc", ["26464-8", "6690-2"]),
   ("platelet", ["26515-7", "777-3", "778-1"]), ("creatinine", ["2160-0", "38483-4"]),
   ("bun", ["3094-0"]), ("sodium", ["2947-0", "2951-2"]),
   ("bicarbonate", ["1963-8", "1959-6", "14627-4", "1960-4", "2028-9"]),
   ("chloride", ["2075-0"]), ("potassium", ["6298-4", "2823-3"]),
   ("albumin", ["1751-7", "35706-1", "13980-8"]), ("calcium", ["17861-6", "49765-1"]),
   ("total_bilirubin", ["42719-5", "1975-2"]), ("ast", ["1920-8", "30239-8"]),
   ("alt", ["1742-6", "1743-4", "1744-2"]), ("alp", ["6768-6"])]

/-- Python dict item assignment `d[k] = v` on an association list
preserving insertion order: overwrite in place if the key exists, append
otherwise. -/
def dictSet {β : Type} (m : List (String × β)) (k : String) (v : β) : List (String × β) :=
  if (List.lookup k m).isSome then
    m.map (fun e => if e.1 == k then (k, v) else e)
  else m ++ [(k, v)]

/-- The six hybrid entries written into the shared `INSURANCE_MAPPING` by
every `process_insurance` call (nsclc.py lines 1674-1679). -/
def hybridInsuranceEntries : List (String × String) :=
  [("Commercial_Medicare", "commercial_medicare"),
   ("Commercial_Medicaid", "commercial_medicaid"),
   ("Commercial_Medicare_Medicaid", "commercial_medicare_medicaid"),
   ("Other_Medicare", "other_medicare"), ("Other_Medicaid", "other_medicaid"),
   ("Other_Medicare_Medicaid", "other_medicare_medicaid")]

/-- State of `INSURANCE_MAPPING` after a `process_insurance` call that
reached the merge stage, starting from table state `t`. -/
def insuranceMappingAfterCall (t : List (String × String)) : List (String × String) :=
  hybridInsuranceEntries.foldl (fun acc e => dictSet acc e.1 e.2) t

/-- State of `LOINC_MAPPINGS` after a `process_labs` call:
`self.LOINC_MAPPINGS.update(additional_loinc_mappings)` when the caller
supplies additional mappings, untouched otherwise (nsclc.py lines 1884-1891). -/
def loincMappingsAfterCall (t : List (String × List String))
    (additional : Option (List (String × List String))) : List (String × List String) :=
  match additional with
  | none => t
  | some m => m.foldl (fun acc e => dictSet acc e.1 e.2) t

theorem lookup_map_overwrite {β : Type} (m : List (String × β)) (k : String) (v : β)
    (h : (List.lookup k m).isSome = true) :
    List.lookup k (m.map (fun e => if e.1 == k then (k, v) else e)) = some v := by
  induction m with
  | nil => simp [List.lookup] at h
  | cons e es ih =>
    obtain ⟨ek, ev⟩ := e
    simp only [List.map_cons]
    split_ifs with hek
    · simp [List.lookup]
    · have hek2 : (ek == k) = false := Bool.not_eq_true _ ▸ hek
      have hke : (k == ek) = false := by
        rw [beq_eq_false_iff_ne] at hek2 ⊢
        exact fun q => hek2 q.symm
      simp only [List.lookup, hke] at h
      simp only [List.lookup, hke]
      exact ih h

theorem lookup_map_overwrite_other {β : Type} (m : List (String × β)) (k k2 : String) (v : β)
    (h : k2 ≠ k) :
    List.lookup k2 (m.map (fun e => if e.1 == k then (k, v) else e)) = List.lookup k2 m := by
  induction m with
  | nil => rfl
  | cons e es ih =>
    obtain ⟨ek, ev⟩ := e
    have h1 : (k2 == k) = false := beq_eq_false_iff_ne.mpr h
    simp only [List.map_cons]
    split_ifs with hek
    · have hek2 : (ek == k) = true := hek
      have h2 : (k2 == ek) = false := by
        rw [beq_iff_eq] at hek2
        rw [hek2]
        exact h1
      simp only [List.lookup, h1, h2]
      exact ih
    · by_cases hk2e : k2 = ek
      · simp [List.lookup, beq_iff_eq.mpr hk2e]
      · have h2 : (k2 == ek) = false := beq_eq_false_iff_ne.mpr hk2e
        simp only [List.lookup, h2]
        exact ih

theorem lookup_dictSet_self {β : Type} (m : List (String × β)) (k : String) (v : β) :
    List.lookup k (dictSet m k v) = some v := by
  unfold dictSet
  split_ifs with h
  · exact lookup_map_overwrite m k v h
  · have hnone : List.lookup k m = none := by
      rcases hl : List.lookup k m with _ | w
      · rfl
      · rw [hl] at h; simp at h
    rw [List.lookup_append, hnone]
    simp [List.lookup]

theorem lookup_dictSet_other {β : Type} (m : List (String × β)) (k k2 : String) (v : β)
    (h : k2 ≠ k) : List.lookup k2 (dictSet m k v) = List.lookup k2 m := by
  unfold dictSet
  split_ifs with hin
  · exact lookup_map_overwrite_other m k k2 v h
  · rw [List.lookup_append]
    have h1 : (k2 == k) = false := beq_eq_false_iff_ne.mpr h
    simp [List.lookup, h1]

theorem lookup_foldl_dictSet_notin {β : Type} (entries : List (String × β))
    (t : List (String × β)) (k : String) (h : ∀ e ∈ entries, k ≠ e.1) :
    List.lookup k (entries.foldl (fun acc e => dictSet acc e.1 e.2) t) = List.lookup k t := by
  induction entries generalizing t with
  | nil => rfl
  | cons a as ih =>
    rw [List.foldl_cons, ih _ (fun e he => h e (List.mem_cons_of_mem a he)),
      lookup_dictSet_other _ _ _ _ (h a (List.mem_cons_self a as))]

theorem lookup_foldl_dictSet_mem {β : Type} (entries : List (String × β))
    (t : List (String × β)) (e : String × β) (he : e ∈ entries)
    (hnd : (entries.map Prod.fst).Nodup) :
    List.lookup e.1 (entries.foldl (fun acc x => dictSet acc x.1 x.2) t) = some e.2 := by
  induction entries generalizing t with
  | nil => simp at he
  | cons a as ih =>
    rw [List.map_cons, List.nodup_cons] at hnd
    rcases List.mem_cons.mp he with rfl | he2
    · rw [List.foldl_cons,
        lookup_foldl_dictSet_notin as _ e.1
          (fun x hx q => hnd.1 (q ▸ List.mem_map_of_mem Prod.fst hx)),
        lookup_dictSet_self]
    · rw [List.foldl_cons]
      exact ih _ he2 hnd.2

/-- C9 (amended): the class-level lookup tables are not immutable.  Every
`process_insurance` call that reaches the merge stage writes the six fixed
hybrid entries into the shared `INSURANCE_MAPPING` (leaving every other key
unchanged), and a `process_labs` call merges the caller-supplied
`additional_loinc_mappings` into the shared `LOINC_MAPPINGS`, so a second
call observes the additions of the first; only a labs call without
additional mappings leaves its table untouched. -/
theorem lookup_tables_not_immutable :
    (∀ t : List (String × List String), loincMappingsAfterCall t none = t) ∧
    (∀ (t : List (String × String)) (k : String),
      (∀ e ∈ hybridInsuranceEntries, k ≠ e.1) →
      List.lookup k (insuranceMappingAfterCall t) = List.lookup k t) ∧
    (∀ t : List (String × String), ∀ e ∈ hybridInsuranceEntries,
      List.lookup e.1 (insuranceMappingAfterCall t) = some e.2) ∧
    List.lookup "new_lab" LOINC_MAPPINGS = none ∧
    List.lookup "new_lab"
      (loincMappingsAfterCall LOINC_MAPPINGS (some [("new_lab", ["1234-5"])])) =
      some ["1234-5"] ∧
    List.lookup "Commercial_Medicare" INSURANCE_MAPPING = none ∧
    List.lookup "Commercial_Medicare" (insuranceMappingAfterCall INSURANCE_MAPPING) =
      some "commercial_medicare" := by
  refine ⟨fun t => rfl, ?_, ?_, by decide, by decide, by decide, by decide⟩
  · intro t k h
    exact lookup_foldl_dictSet_notin hybridInsuranceEntries t k h
  · intro t e he
    exact lookup_foldl_dictSet_mem hybridInsuranceEntries t e he (by decide)

/-- Witness for C9: the hybrid-entry insertion observed on the real initial
table. -/
theorem lookup_tables_not_immutable_witness :
    (("Commercial_Medicaid", "commercial_medicaid") ∈ hybridInsuranceEntries) ∧
    List.lookup "Commercial_Medicaid" (insuranceMappingAfterCall INSURANCE_MAPPING) =
      some "commercial_medicaid" :=
  ⟨by decide,
   lookup_tables_not_immutable.2.2.1 INSURANCE_MAPPING
     ("Commercial_Medicaid", "commercial_medicaid") (by decide)⟩

/-- Counterexample to C9 as stated: a labs call with additional LOINC
mappings and an insurance call both leave the shared table different from
its prior contents, so a second call does not observe identical table
contents. -/
theorem lookup_tables_not_immutable_cex :
    loincMappingsAfterCall LOINC_MAPPINGS (some [("new_lab", ["1234-5"])]) ≠ LOINC_MAPPINGS ∧
    insuranceMappingAfterCall INSURANCE_MAPPING ≠ INSURANCE_MAPPING := by
  constructor <;> decide

/-! ## Instance attribute storage on success and failure
(nsclc.py: `process_labs` lines 2180-2186, `process_enhanced` lines 514-520,
`process_biomarkers` lines 976-982, `process_mortality` lines 2962-2967).

Each method ends its try block by assigning an instance attribute and
returning the table; the except arm logs and returns None without touching
any attribute.  A call outcome is `some table` for the success path and
`none` for the caught-exception path. -/

structure ProcessorState (τ : Type) where
  enhanced_df : Option τ
  biomarkers_df : Option τ
  labs_df : Option τ
  mortality_df : Option τ

/-- Attribute effect of `process_labs`: the success path executes
`self.labs_df = None` (nsclc.py line 2181) before returning the table; the
failure path leaves the state unchanged. -/
def process_labs_store {τ : Type} (st : ProcessorState τ) (outcome : Option τ) :
    ProcessorState τ :=
  match outcome with
  | some _ => { st with labs_df := none }
  | none => st

/-- Attribute effect of `process_enhanced`: the success path stores the
returned table in `self.enhanced_df` (nsclc.py line 515). -/
def process_enhanced_store {τ : Type} (st : ProcessorState τ) (outcome : Option τ) :
    ProcessorState τ :=
  match outcome with
  | some t => { st with enhanced_df := some t }
  | none => st

/-- Attribute effect of `process_biomarkers` (nsclc.py line 977). -/
def process_biomarkers_store {τ : Type} (st : ProcessorState τ) (outcome : Option τ) :
    ProcessorState τ :=
  match outcome with
  | some t => { st with biomarkers_df := some t }
  | none => st

/-- Attribute effect of `process_mortality` (nsclc.py line 2963). -/
def process_mortality_store {τ : Type} (st : ProcessorState τ) (outcome : Option τ) :
    ProcessorState τ :=
  match outcome with
  | some t => { st with mortality_df := some t }
  | none => st

/-- C10: after a successful process_labs call the labs_df attribute is None
rather than the returned table, while the other pipeline methods store
their returned table in their corresponding attribute on success; a failed
call leaves the state unchanged in every method, and process_labs touches
no other attribute. -/
theorem labs_df_not_stored {τ : Type} (st : ProcessorState τ) (t : τ) :
    (process_labs_store st (some t)).labs_df = none ∧
    process_labs_store st none = st ∧
    (process_enhanced_store st (some t)).enhanced_df = some t ∧
    process_enhanced_store st none = st ∧
    (process_biomarkers_store st (some t)).biomarkers_df = some t ∧
    process_biomarkers_store st none = st ∧
    (process_mortality_store st (some t)).mortality_df = some t ∧
    process_mortality_store st none = st ∧
    (process_labs_store st (some t)).enhanced_df = st.enhanced_df ∧
    (process_labs_store st (some t)).biomarkers_df = st.biomarkers_df ∧
    (process_labs_store st (some t)).mortality_df = st.mortality_df :=
  ⟨rfl, rfl, rfl, rfl, rfl, rfl, rfl, rfl, rfl, rfl, rfl⟩
